import Mathlib

/-!
Verification development for the zerant repository (vision-guided browser agent).

The TypeScript sources are embedded shallowly:

* `src/ai/geminiVision.ts` (src/unnamed/part_003): `parseAction`,
  `validateCoordinates`;
* `src/mobile/src/native/browserOS.ts`: `browser.click` clamping,
  `visionAgentUtils.cleanupContacts`, the `runTask` agent loop;
* `src/agent/src/lib/agent/ContactSearchAgent.ts`: `_deduplicateContacts`,
  `_validateEmail` / `_validatePhone` / `_validateAddress`, the
  contact-extraction/validation pipeline;
* the `callLLM` gateway (src/unnamed/part_001): pacing gate and 429 retry.

Modelling conventions: JS strings are `List Char` / `String`; JS numbers that
carry coordinate or confidence values are exact rationals (`ℚ`) or integers
(IEEE effects are irrelevant at the magnitudes the claims quantify over, and
they are noted where elided); fallible operations take their outcome from an
explicit environment record; regular-expression matching is embedded by the
leftmost-match / backtracking semantics of the concrete regex used at each
site (derived clause by clause in the doc comment of the embedding).
The modelled whitespace classes cover the ASCII whitespace characters plus
NBSP/BOM and the two Unicode line separators; case folding is ASCII, matching
`Char.toUpper`/`Char.toLower`.
-/

set_option maxHeartbeats 1000000

namespace Zerant

/-- JS `\s` whitespace class (ASCII part plus NBSP, BOM and the Unicode line
separators), as used by `String.prototype.trim` and `\s` in the regexes of
`parseAction`. -/
def isJsWs (c : Char) : Bool :=
  c == ' ' || c == '\t' || c == '\n' || c == '\r' || c == Char.ofNat 11 ||
  c == Char.ofNat 12 || c == Char.ofNat 0xA0 || c == Char.ofNat 0x2028 ||
  c == Char.ofNat 0x2029 || c == Char.ofNat 0xFEFF

/-- JS line terminators: the characters `.` does not match in a regex without
the `s` flag. -/
def isLineTerm (c : Char) : Bool :=
  c == '\n' || c == '\r' || c == Char.ofNat 0x2028 || c == Char.ofNat 0x2029

/-- ASCII uppercase of a char list (JS `toUpperCase` restricted to ASCII). -/
def upperL (l : List Char) : List Char := l.map Char.toUpper

/-- ASCII lowercase of a char list (JS `toLowerCase` restricted to ASCII). -/
def lowerL (l : List Char) : List Char := l.map Char.toLower

/-- JS `String.prototype.trim` on a char list. -/
def trimL (l : List Char) : List Char :=
  ((l.dropWhile isJsWs).reverse.dropWhile isJsWs).reverse

/-- Substring test: does `pat` occur contiguously in `l`?  (JS
`String.prototype.includes`.) -/
def containsSeqL (pat l : List Char) : Bool :=
  (List.range (l.length + 1)).any (fun i => pat.isPrefixOf (l.drop i))

/-- Numeric value of a digit string. -/
def digitsToNat (ds : List Char) : Nat :=
  ds.foldl (fun n c => 10 * n + (c.toNat - 48)) 0

/-- `Math.round(parseFloat(ds ++ "." ++ fs))` computed exactly: the captured
fraction `fs` has value `digitsToNat fs / 10 ^ |fs| ∈ [0, 1)`, and
`Math.round` (round half towards `+∞`) adds one to the integer part exactly
when that fraction is `≥ 1/2`.  (IEEE rounding of astronomically long digit
strings is idealised to exact rational arithmetic.) -/
def roundDigits (ds fs : List Char) : Nat :=
  digitsToNat ds + (if 10 ^ fs.length ≤ 2 * digitsToNat fs then 1 else 0)

/-- The TS `Action` interface of `src/ai/geminiVision.ts`: a tag plus
optional fields, exactly one group of which is populated by the decoder. -/
structure ActionRec where
  type : String
  x : Option Int := none
  y : Option Int := none
  text : Option String := none
  submit : Option Bool := none
  direction : Option String := none
  answer : Option String := none
deriving Repr, DecidableEq

/-- Tail of the `/DONE\s*(.+)/i` match, entered just past the literal `DONE`.
Backtracking semantics of `\s*(.+)` with `.` excluding line terminators:
the greedy `\s*` takes the whole whitespace run; if a character follows the
run it is not a line terminator (not whitespace at all), and the greedy `.+`
captures from there to the end of that line.  If the whitespace run reaches
the end of the string, `\s*` backtracks one character at a time until `.+`
can take a single non-line-terminator character; every character after that
one is a line terminator, so the capture is that single character.  If no
such character exists the match at this position fails. -/
def doneTailSummary (r : List Char) : Option (List Char) :=
  if (r.dropWhile isJsWs).isEmpty then
    match (r.reverse.find? (fun c => !isLineTerm c)) with
    | some c => some [c]
    | none => none
  else
    some ((r.dropWhile isJsWs).takeWhile (fun c => !isLineTerm c))

/-- Leftmost match of `/DONE\s*(.+)/i` over the char list, returning capture
group 1 (case-insensitivity realised by comparing after ASCII uppercasing). -/
def doneMatch (l : List Char) : Option (List Char) :=
  (List.range l.length).findSome? (fun i =>
    if "DONE".data.isPrefixOf (upperL (l.drop i)) then
      doneTailSummary (l.drop (i + 4))
    else none)

/-- One coordinate of the CLICK regex: `\s+(\d+(?:\.\d+)?)` with nothing
mandatory after it.  The greedy `\s+` must take the whole whitespace run
(giving back a whitespace character can never satisfy the following `\d`),
then `\d+` takes the maximal digit run and the optional fraction is taken
when present. -/
def clickNum2 (r : List Char) : Option (List Char × List Char) :=
  let ws := r.takeWhile isJsWs
  let r1 := r.dropWhile isJsWs
  if ws.isEmpty then none else
  let d := r1.takeWhile Char.isDigit
  let r2 := r1.dropWhile Char.isDigit
  if d.isEmpty then none else
  match r2 with
  | '.' :: r3 =>
      let f := r3.takeWhile Char.isDigit
      if f.isEmpty then some (d, []) else some (d, f)
  | _ => some (d, [])

/-- Tail of `/CLICK\s+(\d+(?:\.\d+)?)\s+(\d+(?:\.\d+)?)/i` past `CLICK`.
`\d+` can only shrink onto digits, which never satisfy the `\s` that
follows, so the sole backtracking choice is whether group 1 keeps its
optional fraction: the fractional parse is tried first, and on failure of
the remainder the fraction is dropped (after which the remainder starts at
the `.` and fails as in JS). -/
def clickTail (r : List Char) :
    Option ((List Char × List Char) × (List Char × List Char)) :=
  let ws := r.takeWhile isJsWs
  let r1 := r.dropWhile isJsWs
  if ws.isEmpty then none else
  let d1 := r1.takeWhile Char.isDigit
  let r2 := r1.dropWhile Char.isDigit
  if d1.isEmpty then none else
  let withFrac : Option ((List Char × List Char) × (List Char × List Char)) :=
    match r2 with
    | '.' :: r3 =>
        let f1 := r3.takeWhile Char.isDigit
        let r4 := r3.dropWhile Char.isDigit
        if f1.isEmpty then none else
        match clickNum2 r4 with
        | some p2 => some ((d1, f1), p2)
        | none => none
    | _ => none
  match withFrac with
  | some p => some p
  | none =>
    match clickNum2 r2 with
    | some p2 => some ((d1, []), p2)
    | none => none

/-- Leftmost match of the CLICK regex, returning the two numeric captures
(each as integer digits and fraction digits). -/
def clickMatch (l : List Char) :
    Option ((List Char × List Char) × (List Char × List Char)) :=
  (List.range l.length).findSome? (fun i =>
    if "CLICK".data.isPrefixOf (upperL (l.drop i)) then
      clickTail (l.drop (i + 5))
    else none)

/-- `(?:\s+SUBMIT)?$` at `t` (no `m` flag, so `$` is the very end): the run
of whitespace must be non-empty and the remainder must be exactly `SUBMIT`
case-insensitively (`SUBMIT` starts with a non-space, so only the maximal
whitespace split can match). -/
def submitEnd (t : List Char) : Bool :=
  let ws := t.takeWhile isJsWs
  let t1 := t.dropWhile isJsWs
  !ws.isEmpty && upperL t1 == "SUBMIT".data

/-- Tail of `/TYPE\s+(.+?)(?:\s+SUBMIT)?$/i` past `TYPE`.  With the maximal
whitespace run `ws` and remainder `r1`: when `r1` is non-empty the greedy
`\s+` keeps the whole run (a shorter run would start the lazy capture on a
whitespace character, and the only ends the pattern accepts — end of string,
or whitespace followed by literal `SUBMIT` — are exactly those reachable
from the start of `r1` as well, since `r1` begins with a non-space), and the
lazy `(.+?)` grows from one character until the rest is empty or is
whitespace+`SUBMIT`; when `r1` is empty the match succeeds only by
backtracking `\s+` to length `|ws| - 1 ≥ 1` with the capture being the last
whitespace character, provided it is not a line terminator. -/
def typeTail (r : List Char) : Option (List Char) :=
  let ws := r.takeWhile isJsWs
  let r1 := r.dropWhile isJsWs
  if ws.isEmpty then none
  else if r1.isEmpty then
    match ws.getLast? with
    | some c => if 2 ≤ ws.length && !isLineTerm c then some [c] else none
    | none => none
  else
    (List.range r1.length).findSome? (fun k =>
      let g := k + 1
      if (r1.take g).all (fun c => !isLineTerm c) &&
          ((r1.drop g).isEmpty || submitEnd (r1.drop g)) then
        some (r1.take g)
      else none)

/-- Leftmost match of the TYPE regex, returning capture group 1. -/
def typeMatch (l : List Char) : Option (List Char) :=
  (List.range l.length).findSome? (fun i =>
    if "TYPE".data.isPrefixOf (upperL (l.drop i)) then
      typeTail (l.drop (i + 4))
    else none)

/-- `parseAction` of `src/ai/geminiVision.ts` lines 112–158: normalise, try
DONE, CLICK, TYPE, SCROLL DOWN, SCROLL UP in order, and fall back to a
downward scroll. -/
def parseActionL (l : List Char) : ActionRec :=
  let clean := upperL (trimL l)
  if "DONE".data.isPrefixOf clean then
    match doneMatch l with
    | some g => { type := "done", answer := some (String.mk (trimL g)) }
    | none => { type := "done", answer := some "Task completed" }
  else
    match clickMatch l with
    | some ((dx, fx), (dy, fy)) =>
        { type := "click", x := some ((roundDigits dx fx : ℕ) : ℤ),
          y := some ((roundDigits dy fy : ℕ) : ℤ) }
    | none =>
      match typeMatch l with
      | some g =>
          { type := "type", text := some (String.mk (trimL g)),
            submit := some (containsSeqL "submit".data (lowerL l)) }
      | none =>
        if containsSeqL "SCROLL DOWN".data clean then
          { type := "scroll", direction := some "down" }
        else if containsSeqL "SCROLL UP".data clean then
          { type := "scroll", direction := some "up" }
        else
          { type := "scroll", direction := some "down" }

/-- String-level entry point of the decoder. -/
def parseAction (s : String) : ActionRec := parseActionL s.data

/-- `validateCoordinates` of `src/ai/geminiVision.ts` lines 161–163
(inclusive upper bounds). -/
def validateCoordinates (x y w h : ℤ) : Bool :=
  decide (0 ≤ x) && decide (x ≤ w) && decide (0 ≤ y) && decide (y ≤ h)

/-- Coordinate clamping of `browser.click` in
`src/mobile/src/native/browserOS.ts` lines 142–143:
`Math.max(0, Math.min(v, size - 1))` for each axis. -/
def clampClick (x y w h : ℤ) : ℤ × ℤ :=
  (max 0 (min x (w - 1)), max 0 (min y (h - 1)))

-- Spec §8 scenario: `"CLICK 320 410"` decodes to a click at (320, 410).
example :
    parseAction "CLICK 320 410" =
      { type := "click", x := some 320, y := some 410 } := by decide

-- Spec §8 scenario: `"TYPE hello world SUBMIT"`.
example :
    parseAction "TYPE hello world SUBMIT" =
      { type := "type", text := some "hello world", submit := some true } := by
  decide

-- Spec §8 scenario: unrecognised text falls back to a downward scroll.
example :
    parseAction "Let me do it" =
      { type := "scroll", direction := some "down" } := by decide

example :
    parseAction "DONE Found 3 investor emails" =
      { type := "done", answer := some "Found 3 investor emails" } := by decide

example :
    parseAction "done" = { type := "done", answer := some "Task completed" } := by
  decide

example :
    parseAction "SCROLL UP" = { type := "scroll", direction := some "up" } := by
  decide

/-! ### Well-formedness of decoded actions (spec §3 Action invariant) -/

/-- Spec §3 invariant on `Action`: the tag is one of the four kinds, exactly
the fields of that kind are populated, and coordinates are non-negative
integers. -/
def wellFormedAction (a : ActionRec) : Bool :=
  if a.type == "done" then
    a.answer.isSome && a.x.isNone && a.y.isNone && a.text.isNone &&
      a.submit.isNone && a.direction.isNone
  else if a.type == "click" then
    (match a.x, a.y with
      | some vx, some vy => decide (0 ≤ vx) && decide (0 ≤ vy)
      | _, _ => false) &&
      a.text.isNone && a.submit.isNone && a.direction.isNone && a.answer.isNone
  else if a.type == "type" then
    a.text.isSome && a.submit.isSome && a.x.isNone && a.y.isNone &&
      a.direction.isNone && a.answer.isNone
  else if a.type == "scroll" then
    (a.direction == some "down" || a.direction == some "up") && a.x.isNone &&
      a.y.isNone && a.text.isNone && a.submit.isNone && a.answer.isNone
  else false

/-- Decoder rule 1 fires: the trimmed, uppercased input starts with `DONE`. -/
def doneRule (l : List Char) : Bool := "DONE".data.isPrefixOf (upperL (trimL l))

/-- Decoder rule 4a fires: the normalised input contains `SCROLL DOWN`. -/
def scrollDownRule (l : List Char) : Bool :=
  containsSeqL "SCROLL DOWN".data (upperL (trimL l))

/-- Decoder rule 4b fires: the normalised input contains `SCROLL UP`. -/
def scrollUpRule (l : List Char) : Bool :=
  containsSeqL "SCROLL UP".data (upperL (trimL l))

theorem wellFormed_parseActionL (l : List Char) :
    wellFormedAction (parseActionL l) = true := by
  by_cases h1 : "DONE".data.isPrefixOf (upperL (trimL l)) = true
  · cases hd : doneMatch l <;> simp [parseActionL, h1, hd, wellFormedAction]
  · rw [Bool.not_eq_true] at h1
    cases hc : clickMatch l with
    | some p =>
        obtain ⟨⟨dx, fx⟩, dy, fy⟩ := p
        simp [parseActionL, h1, hc, wellFormedAction, Int.natCast_nonneg]
    | none =>
        cases ht : typeMatch l with
        | some g => simp [parseActionL, h1, hc, ht, wellFormedAction]
        | none =>
            by_cases h4 : containsSeqL "SCROLL DOWN".data (upperL (trimL l)) = true
            · simp [parseActionL, h1, hc, ht, h4, wellFormedAction]
            · rw [Bool.not_eq_true] at h4
              by_cases h5 : containsSeqL "SCROLL UP".data (upperL (trimL l)) = true
              · simp [parseActionL, h1, hc, ht, h4, h5, wellFormedAction]
              · rw [Bool.not_eq_true] at h5
                simp [parseActionL, h1, hc, ht, h4, h5, wellFormedAction]

/-- C1: the decoder is total and safe — for every input string it produces a
well-formed action of one of the four kinds, and whenever none of the
DONE/CLICK/TYPE/SCROLL rules matches it degrades to the `Scroll{down}`
fallback. -/
theorem parseAction_total_and_fallback (s : String) :
    wellFormedAction (parseAction s) = true ∧
    (doneRule s.data = false → clickMatch s.data = none →
      typeMatch s.data = none → scrollDownRule s.data = false →
      scrollUpRule s.data = false →
      parseAction s = { type := "scroll", direction := some "down" }) := by
  refine ⟨wellFormed_parseActionL s.data, ?_⟩
  intro h1 h2 h3 h4 h5
  unfold doneRule at h1
  unfold scrollDownRule at h4
  unfold scrollUpRule at h5
  simp [parseAction, parseActionL, h1, h2, h3, h4, h5]

/-- Witness for C1's fallback hypothesis at the concrete input `"hm!"`. -/
theorem parseAction_total_and_fallback_witness :
    wellFormedAction (parseAction "hm!") = true ∧
    parseAction "hm!" = { type := "scroll", direction := some "down" } :=
  ⟨(parseAction_total_and_fallback "hm!").1,
    (parseAction_total_and_fallback "hm!").2 (by decide) (by decide) (by decide)
      (by decide) (by decide)⟩

/-! ### Coordinate validation and clamping (C5, C10) -/

/-- C5: for all integer click coordinates and every viewport with positive
width and height, the coordinates dispatched by `browser.click` are clamped
into `[0, w) × [0, h)` by `max 0 (min v (size - 1))` per axis. -/
theorem clampClick_in_viewport (x y w h : ℤ) (hw : 1 ≤ w) (hh : 1 ≤ h) :
    clampClick x y w h = (max 0 (min x (w - 1)), max 0 (min y (h - 1))) ∧
    0 ≤ (clampClick x y w h).1 ∧ (clampClick x y w h).1 < w ∧
    0 ≤ (clampClick x y w h).2 ∧ (clampClick x y w h).2 < h := by
  refine ⟨rfl, ?_, ?_, ?_, ?_⟩ <;> simp only [clampClick] <;> omega

/-- Witness for C5 at `(x, y) = (500, -3)` and viewport `375 × 812`. -/
theorem clampClick_in_viewport_witness :
    0 ≤ (clampClick 500 (-3) 375 812).1 ∧ (clampClick 500 (-3) 375 812).1 < 375 ∧
    0 ≤ (clampClick 500 (-3) 375 812).2 ∧ (clampClick 500 (-3) 375 812).2 < 812 :=
  (clampClick_in_viewport 500 (-3) 375 812 (by decide) (by decide)).2

/-- C10: `validateCoordinates` uses inclusive upper bounds — it accepts
exactly `0 ≤ x ≤ w ∧ 0 ≤ y ≤ h`; in particular a click at `(w, h)` (one past
the last drawable pixel) passes validation and is only brought into range by
the adapter's later clamp, which sends it to `(w - 1, h - 1)`. -/
theorem validateCoordinates_inclusive (x y w h : ℤ) :
    (validateCoordinates x y w h = true ↔ 0 ≤ x ∧ x ≤ w ∧ 0 ≤ y ∧ y ≤ h) ∧
    (1 ≤ w → 1 ≤ h →
      validateCoordinates w h w h = true ∧ clampClick w h w h = (w - 1, h - 1)) := by
  constructor
  · simp [validateCoordinates, and_assoc]
  · intro hw hh
    refine ⟨by simp [validateCoordinates]; omega, ?_⟩
    simp only [clampClick, Prod.mk.injEq]
    constructor <;> omega

/-- Witness for C10 at viewport `375 × 812`: the boundary click `(375, 812)`
is accepted by validation and clamped to `(374, 811)`. -/
theorem validateCoordinates_inclusive_witness :
    validateCoordinates 375 812 375 812 = true ∧
    clampClick 375 812 375 812 = (374, 811) :=
  (validateCoordinates_inclusive 375 812 375 812).2 (by decide) (by decide)

/-! ### C9: the DONE summary

The exact behaviour of the `DONE` branch, proved as a closed-form function
of the input.  The closed form differs from the spec sentence in two ways
(whence the counterexample below): the capture stops at the first line
terminator, and an all-whitespace remainder that contains a blank-like
character yields the empty summary rather than the `"Task completed"`
default. -/

/-- Closed form of the summary produced by the `DONE` branch, stated from
the amended claim: the text after `DONE` starts at `r`; if some
non-whitespace character follows, the summary runs from the first such
character to the next line terminator, trimmed; if everything after `DONE`
is whitespace, the summary is `""` when that whitespace contains a
non-line-terminator character and `"Task completed"` otherwise. -/
def specDoneSummary (s : String) : String :=
  if (((s.data.dropWhile isJsWs).drop 4).dropWhile isJsWs).isEmpty then
    if ((s.data.dropWhile isJsWs).drop 4).any (fun c => !isLineTerm c) then ""
    else "Task completed"
  else
    String.mk (trimL ((((s.data.dropWhile isJsWs).drop 4).dropWhile
      isJsWs).takeWhile (fun c => !isLineTerm c)))

/-- A whitespace character never uppercases to `D`. -/
theorem toUpper_ne_D_of_ws {c : Char} (h : isJsWs c = true) :
    Char.toUpper c ≠ 'D' := by
  simp only [isJsWs, Bool.or_eq_true, beq_iff_eq] at h
  rcases h with (((((((((h | h) | h) | h) | h) | h) | h) | h) | h) | h) <;>
    subst h <;> decide

/-- A line terminator is whitespace. -/
theorem ws_of_lineTerm {c : Char} (h : isLineTerm c = true) : isJsWs c = true := by
  simp only [isLineTerm, Bool.or_eq_true, beq_iff_eq] at h
  rcases h with ((h | h) | h) | h <;> subst h <;> decide

/-- The case-insensitive `DONE` test fails when the head does not uppercase
to `D`. -/
theorem done_test_head_ne {d : Char} (rest : List Char)
    (h : Char.toUpper d ≠ 'D') :
    "DONE".data.isPrefixOf (upperL (d :: rest)) = false := by
  simp only [upperL, List.map_cons]
  rw [Bool.eq_false_iff]
  intro hc
  rw [List.isPrefixOf_iff_prefix] at hc
  have hc' : 'D' :: "ONE".data <+: Char.toUpper d :: List.map Char.toUpper rest := hc
  exact h (List.cons_prefix_cons.mp hc').1.symm

/-- The case-insensitive `DONE` test fails on a string headed by
whitespace. -/
theorem done_test_ws_head {c : Char} (rest : List Char) (h : isJsWs c = true) :
    "DONE".data.isPrefixOf (upperL (c :: rest)) = false :=
  done_test_head_ne rest (toUpper_ne_D_of_ws h)

/-- Skipping a leading element on which `f` fails. -/
theorem findSome?_range_shift {β : Type} (f : ℕ → Option β) (n : ℕ)
    (h0 : f 0 = none) :
    (List.range (n + 1)).findSome? f =
      (List.range n).findSome? (fun i => f (i + 1)) := by
  rw [List.range_succ_eq_map, List.findSome?_cons, h0, List.findSome?_map]
  rfl

/-- Leading whitespace does not affect the leftmost `DONE` match. -/
theorem doneMatch_cons_ws {c : Char} (l : List Char) (h : isJsWs c = true) :
    doneMatch (c :: l) = doneMatch l := by
  unfold doneMatch
  have h0 : (if "DONE".data.isPrefixOf (upperL (List.drop 0 (c :: l))) = true
      then doneTailSummary (List.drop (0 + 4) (c :: l)) else none) = none := by
    rw [List.drop_zero, done_test_ws_head l h]
    simp
  rw [List.length_cons, findSome?_range_shift _ _ h0]
  try rfl

/-- The trailing-trim of a list is a prefix of it. -/
theorem trimR_prefixOf (x : List Char) :
    (x.reverse.dropWhile isJsWs).reverse <+: x := by
  have h := List.dropWhile_suffix (l := x.reverse) (p := isJsWs)
  have h2 := List.reverse_prefix.mpr h
  simpa using h2

/-- When the input starts with a non-whitespace character and the `DONE`
guard holds, the leftmost match sits at position 0 and the whole match
reduces to the tail function at `drop 4`. -/
theorem doneMatch_at_head {l : List Char}
    (hpre : "DONE".data.isPrefixOf (upperL l) = true) :
    doneMatch l = doneTailSummary (l.drop 4) := by
  rw [List.isPrefixOf_iff_prefix] at hpre
  rcases l with - | ⟨c0, - | ⟨c1, - | ⟨c2, - | ⟨c3, r⟩⟩⟩⟩
  · have := hpre.length_le; simp [upperL] at this
  · have := hpre.length_le; simp [upperL] at this
  · have := hpre.length_le; simp [upperL] at this
  · have := hpre.length_le; simp [upperL] at this
  obtain ⟨t, ht⟩ := hpre
  have ht' : Char.toUpper c0 :: Char.toUpper c1 :: Char.toUpper c2 ::
      Char.toUpper c3 :: upperL r = 'D' :: 'O' :: 'N' :: 'E' :: t := ht.symm
  simp only [List.cons.injEq] at ht'
  obtain ⟨h0, h1, h2, h3, -⟩ := ht'
  have hup : "DONE".data.isPrefixOf
      (upperL (c0 :: c1 :: c2 :: c3 :: r)) = true := by
    rw [List.isPrefixOf_iff_prefix]
    refine ⟨upperL r, ?_⟩
    simp [upperL, h0, h1, h2, h3]
  unfold doneMatch
  have hlen : (c0 :: c1 :: c2 :: c3 :: r).length = (r.length + 3) + 1 := by
    simp
  rw [hlen, List.range_succ_eq_map, List.findSome?_cons]
  rw [List.drop_zero, hup]
  have e0 : (c0 :: c1 :: c2 :: c3 :: r).drop (0 + 4) = r := rfl
  have e4 : (c0 :: c1 :: c2 :: c3 :: r).drop 4 = r := rfl
  simp only [if_true, e0, e4]
  cases htail : doneTailSummary r with
  | some g => rfl
  | none =>
      -- the tail fails at position 0: everything after `DONE` is a line
      -- terminator, so no later position can match either
      have hallLT : ∀ c ∈ r, isLineTerm c = true := by
        unfold doneTailSummary at htail
        by_cases hre : (r.dropWhile isJsWs).isEmpty = true
        · rw [hre] at htail
          simp only [if_true] at htail
          cases hfind : r.reverse.find? (fun c => !isLineTerm c) with
          | some c => rw [hfind] at htail; simp at htail
          | none =>
              intro c hc
              have := List.find?_eq_none.mp hfind c (List.mem_reverse.mpr hc)
              simpa using this
        · rw [Bool.not_eq_true] at hre
          rw [hre] at htail
          simp at htail
      rw [List.findSome?_eq_none_iff]
      intro i hi
      obtain ⟨k, -, rfl⟩ := List.mem_map.mp hi
      have hdropfail : ∀ j, "DONE".data.isPrefixOf (upperL (r.drop j)) = false := by
        intro j
        cases hdj : r.drop j with
        | nil => simp [upperL, List.isPrefixOf]
        | cons d rest =>
            have hd : d ∈ r := by
              have : d ∈ r.drop j := by rw [hdj]; exact List.mem_cons_self d rest
              exact List.drop_subset j r this
            exact done_test_ws_head rest (ws_of_lineTerm (hallLT d hd))
      rcases k with - | - | - | j
      · have h1' : Char.toUpper c1 ≠ 'D' := by rw [h1]; decide
        have e : (c0 :: c1 :: c2 :: c3 :: r).drop (Nat.succ 0) =
            c1 :: c2 :: c3 :: r := rfl
        rw [e, done_test_head_ne _ h1']
        simp
      · have h2' : Char.toUpper c2 ≠ 'D' := by rw [h2]; decide
        have e : (c0 :: c1 :: c2 :: c3 :: r).drop (Nat.succ 1) =
            c2 :: c3 :: r := rfl
        rw [e, done_test_head_ne _ h2']
        simp
      · have h3' : Char.toUpper c3 ≠ 'D' := by rw [h3]; decide
        have e : (c0 :: c1 :: c2 :: c3 :: r).drop (Nat.succ 2) =
            c3 :: r := rfl
        rw [e, done_test_head_ne _ h3']
        simp
      · have e : (c0 :: c1 :: c2 :: c3 :: r).drop (Nat.succ (j + 3)) = r.drop j := by
          rw [show Nat.succ (j + 3) = j + 4 by omega]
          rw [show j + 4 = (((j + 1) + 1) + 1) + 1 by omega]
          simp [List.drop_succ_cons]
        rw [e, hdropfail j]
        simp

/-- Under the `DONE` guard the leftmost match reduces to the tail function
applied just past the keyword, which sits at the end of the leading
whitespace. -/
theorem doneMatch_eq (l : List Char) (h : doneRule l = true) :
    doneMatch l = doneTailSummary ((l.dropWhile isJsWs).drop 4) := by
  induction l with
  | nil => exact absurd h (by decide)
  | cons c l ih =>
      by_cases hws : isJsWs c = true
      · rw [doneMatch_cons_ws l hws, List.dropWhile_cons_of_pos hws]
        apply ih
        unfold doneRule trimL at h ⊢
        rwa [List.dropWhile_cons_of_pos hws] at h
      · have hpre : "DONE".data.isPrefixOf (upperL (c :: l)) = true := by
          unfold doneRule trimL at h
          rw [List.dropWhile_cons_of_neg hws] at h
          rw [List.isPrefixOf_iff_prefix] at h ⊢
          simp only [upperL] at h ⊢
          exact h.trans (List.IsPrefix.map Char.toUpper (trimR_prefixOf (c :: l)))
        rw [List.dropWhile_cons_of_neg hws, doneMatch_at_head hpre]

/-- C9 (amended): for every input whose trimmed form begins with `DONE`
(case-insensitively), `parseAction` returns a done action whose summary is
the closed form `specDoneSummary`: the remainder of the line after the
whitespace following `DONE`, trimmed; the empty string when only blank
(non-line-break) whitespace follows; and the default `"Task completed"`
only when nothing, or only line breaks, follows `DONE`. -/
theorem parseAction_done (s : String) (h : doneRule s.data = true) :
    parseAction s = { type := "done", answer := some (specDoneSummary s) } := by
  have hcond := h
  unfold doneRule at hcond
  unfold parseAction parseActionL
  simp only [hcond, if_true]
  rw [doneMatch_eq s.data h]
  by_cases hrest :
      (((s.data.dropWhile isJsWs).drop 4).dropWhile isJsWs).isEmpty = true
  · cases hfind : ((s.data.dropWhile isJsWs).drop 4).reverse.find?
        (fun c => !isLineTerm c) with
    | some c =>
        have hDTS : doneTailSummary ((s.data.dropWhile isJsWs).drop 4) =
            some [c] := by
          unfold doneTailSummary
          rw [hrest, hfind]
          simp
        have hcw : isJsWs c = true := by
          rw [List.isEmpty_iff, List.dropWhile_eq_nil_iff] at hrest
          exact hrest c (List.mem_reverse.mp (List.mem_of_find?_eq_some hfind))
        have hpc := List.find?_some hfind
        have hany : ((s.data.dropWhile isJsWs).drop 4).any
            (fun c => !isLineTerm c) = true := by
          rw [List.any_eq_true]
          exact ⟨c, List.mem_reverse.mp (List.mem_of_find?_eq_some hfind), hpc⟩
        have hspec : specDoneSummary s = "" := by
          unfold specDoneSummary
          rw [hrest, hany]
          simp
        have htr : trimL [c] = [] := by
          unfold trimL
          rw [List.dropWhile_cons_of_pos hcw]
          rfl
        rw [hDTS, hspec]
        simp [htr]
    | none =>
        have hDTS : doneTailSummary ((s.data.dropWhile isJsWs).drop 4) =
            none := by
          unfold doneTailSummary
          rw [hrest, hfind]
          simp
        have hany : ((s.data.dropWhile isJsWs).drop 4).any
            (fun c => !isLineTerm c) = false := by
          rw [List.any_eq_false]
          intro c hc
          have := List.find?_eq_none.mp hfind c (List.mem_reverse.mpr hc)
          simpa using this
        have hspec : specDoneSummary s = "Task completed" := by
          unfold specDoneSummary
          rw [hrest, hany]
          simp
        rw [hDTS, hspec]
        try rfl
  · rw [Bool.not_eq_true] at hrest
    have hDTS : doneTailSummary ((s.data.dropWhile isJsWs).drop 4) =
        some ((((s.data.dropWhile isJsWs).drop 4).dropWhile isJsWs).takeWhile
          (fun c => !isLineTerm c)) := by
      unfold doneTailSummary
      rw [hrest]
      simp
    have hspec : specDoneSummary s =
        String.mk (trimL ((((s.data.dropWhile isJsWs).drop 4).dropWhile
          isJsWs).takeWhile (fun c => !isLineTerm c))) := by
      unfold specDoneSummary
      rw [hrest]
      simp
    rw [hDTS, hspec]
    try rfl

/-- Witness for C9 (amended) at a concrete completed-task input. -/
theorem parseAction_done_witness :
    parseAction "done Found 3 investor emails" =
      { type := "done",
        answer := some (specDoneSummary "done Found 3 investor emails") } ∧
    specDoneSummary "done Found 3 investor emails" = "Found 3 investor emails" :=
  ⟨parseAction_done "done Found 3 investor emails" (by decide), by decide⟩

/-- C9 counterexample: on the input `"DONE "` everything after `DONE` is
whitespace, so the claim as stated demands the default summary
`"Task completed"`; the code instead backtracks the regex into the
whitespace and produces the empty summary. -/
theorem parseAction_done_counterexample :
    parseAction "DONE " = { type := "done", answer := some "" } ∧
    trimL " ".data = [] ∧ ("" : String) ≠ "Task completed" :=
  ⟨by decide, by decide, by decide⟩

/-! ### Contact cleanup and deduplication (C7)

`visionAgentUtils.cleanupContacts` (browserOS.ts 453-464) and
`_deduplicateContacts` (ContactSearchAgent.ts 912-921).  Confidences are
exact rationals standing for the JS floats; in the range `[0, 1]` the sign
of the comparator `(b.confidence || 0) - (a.confidence || 0)` agrees with
the exact comparison, and `Array.prototype.sort` is stable (ES2019), so the
sort is modelled by the stable descending insertion sort. -/

/-- Contact record as produced by the DOM extractor of
`src/mobile/src/native/browserOS.ts` (fields `value`, `type`, `confidence`,
`source`, `context`). -/
structure RawContact where
  value : String
  type : String
  confidence : ℚ
  source : String
  context : String
deriving Repr, DecidableEq

/-- Validation flags attached to a `ContactResult`
(ContactSearchAgent.ts). -/
structure ContactValidation where
  domainMatch : Bool := false
  patternMatch : Bool := false
  locationMatch : Bool := false
deriving Repr, DecidableEq

/-- The `ContactResult` interface of ContactSearchAgent.ts. -/
structure ContactResult where
  value : String
  type : String
  confidence : ℚ
  source : String
  context : String
  validation : ContactValidation
deriving Repr, DecidableEq

/-- First-occurrence-wins deduplication keyed on the lowercased `value`:
the common semantics of the seen-set filter in `_deduplicateContacts` and
the `findIndex`-based filter inside `cleanupContacts` (an element is kept
exactly when it is the first with its lowercased value). -/
def keepFirstByLower {α : Type} (key : α → String) :
    List String → List α → List α
  | _, [] => []
  | seen, c :: cs =>
      if (key c).toLower ∈ seen then keepFirstByLower key seen cs
      else c :: keepFirstByLower key ((key c).toLower :: seen) cs

/-- `_deduplicateContacts` of ContactSearchAgent.ts lines 912-921. -/
def _deduplicateContacts (contacts : List ContactResult) : List ContactResult :=
  keepFirstByLower (fun c => c.value) [] contacts

/-- The order realised by the JS comparator
`(b.confidence || 0) - (a.confidence || 0)`: `a` may sit before `b` iff
`b.confidence ≤ a.confidence`. -/
def confGe (a b : RawContact) : Prop := b.confidence ≤ a.confidence

instance : DecidableRel confGe := fun a b =>
  inferInstanceAs (Decidable (b.confidence ≤ a.confidence))

instance : IsTotal RawContact confGe :=
  ⟨fun a b => le_total b.confidence a.confidence⟩

instance : IsTrans RawContact confGe :=
  ⟨fun _ _ _ hab hbc => le_trans hbc hab⟩

/-- `visionAgentUtils.cleanupContacts` of browserOS.ts lines 453-464:
deduplicate (first occurrence wins, keyed on the lowercased value), sort by
confidence descending (stable, hence the unique stable sort
`insertionSort confGe`), drop entries with confidence not above `0.5`, and
cap at the top 10. -/
def cleanupContacts (contacts : List RawContact) : List RawContact :=
  ((List.insertionSort confGe
      (keepFirstByLower (fun c => c.value) [] contacts)).filter
    (fun c => decide ((1 : ℚ) / 2 < c.confidence))).take 10

/-- The deduplicated list has pairwise-distinct lowercased keys, none of
which lies in the seen set. -/
theorem keepFirst_nodup {α : Type} (key : α → String) :
    ∀ (seen : List String) (l : List α),
      ((keepFirstByLower key seen l).map (fun c => (key c).toLower)).Nodup ∧
      ∀ k ∈ (keepFirstByLower key seen l).map (fun c => (key c).toLower),
        k ∉ seen := by
  intro seen l
  induction l generalizing seen with
  | nil => simp [keepFirstByLower]
  | cons c cs ih =>
      by_cases hmem : (key c).toLower ∈ seen
      · simpa [keepFirstByLower, hmem] using ih seen
      · obtain ⟨hnd, hdis⟩ := ih ((key c).toLower :: seen)
        constructor
        · simp only [keepFirstByLower, if_neg hmem, List.map_cons,
            List.nodup_cons]
          exact ⟨fun hk => (hdis _ hk) (List.mem_cons_self _ _), hnd⟩
        · intro k hk
          simp only [keepFirstByLower, if_neg hmem, List.map_cons,
            List.mem_cons] at hk
          rcases hk with rfl | hk
          · exact hmem
          · exact fun hkseen => (hdis k hk) (List.mem_cons_of_mem _ hkseen)

/-- On a list whose lowercased keys are pairwise distinct and disjoint from
the seen set, the deduplication is the identity. -/
theorem keepFirst_eq_self {α : Type} (key : α → String) :
    ∀ (seen : List String) (l : List α),
      (l.map (fun c => (key c).toLower)).Nodup →
      (∀ k ∈ l.map (fun c => (key c).toLower), k ∉ seen) →
      keepFirstByLower key seen l = l := by
  intro seen l
  induction l generalizing seen with
  | nil => intro _ _; rfl
  | cons c cs ih =>
      intro hnd hdis
      have hmem : (key c).toLower ∉ seen := hdis _ (by simp)
      rw [List.map_cons, List.nodup_cons] at hnd
      simp only [keepFirstByLower, if_neg hmem]
      congr 1
      apply ih
      · exact hnd.2
      · intro k hk
        simp only [List.mem_cons, not_or]
        refine ⟨fun hkc => ?_, hdis k (List.mem_cons_of_mem _ hk)⟩
        exact hnd.1 (hkc ▸ hk)

/-- The cleanup output is a sublist of the sorted deduplicated list. -/
theorem cleanup_sublist (l : List RawContact) :
    List.Sublist (cleanupContacts l)
      (List.insertionSort confGe (keepFirstByLower (fun c => c.value) [] l)) :=
  (List.take_sublist _ _).trans (List.filter_sublist _)

/-- C7: the contact merge stage is idempotent — applying
`cleanupContacts` twice yields exactly the output of applying it once (same
values, same confidences, same order), and likewise for
`_deduplicateContacts`. -/
theorem cleanup_and_dedup_idempotent (l : List RawContact)
    (l₂ : List ContactResult) :
    cleanupContacts (cleanupContacts l) = cleanupContacts l ∧
    _deduplicateContacts (_deduplicateContacts l₂) = _deduplicateContacts l₂ := by
  constructor
  · set u := keepFirstByLower (fun c : RawContact => c.value) [] l with hu
    set out := cleanupContacts l with hout
    have hkeysu : (u.map (fun c => c.value.toLower)).Nodup :=
      (keepFirst_nodup _ [] l).1
    have hperm : List.Perm (List.insertionSort confGe u) u :=
      List.perm_insertionSort _ _
    have hkeyss : ((List.insertionSort confGe u).map
        (fun c => c.value.toLower)).Nodup :=
      ((hperm.map (fun c => c.value.toLower)).nodup_iff).mpr hkeysu
    have hkeysout : (out.map (fun c => c.value.toLower)).Nodup :=
      List.Nodup.sublist
        (List.Sublist.map (fun c => c.value.toLower) (cleanup_sublist l)) hkeyss
    have hsorted : List.Sorted confGe out :=
      List.Pairwise.sublist (cleanup_sublist l)
        (List.sorted_insertionSort confGe u)
    have hdedup : keepFirstByLower (fun c : RawContact => c.value) [] out = out :=
      keepFirst_eq_self _ [] out hkeysout (by simp)
    have hsort : List.insertionSort confGe out = out :=
      List.Sorted.insertionSort_eq hsorted
    have hfilter : out.filter (fun c => decide ((1 : ℚ) / 2 < c.confidence)) =
        out := by
      rw [List.filter_eq_self]
      intro a ha
      have : a ∈ (List.insertionSort confGe u).filter
          (fun c => decide ((1 : ℚ) / 2 < c.confidence)) :=
        List.take_subset _ _ (hout ▸ ha)
      have hp := List.of_mem_filter this
      exact hp
    have htake : out.take 10 = out := by
      apply List.take_of_length_le
      rw [hout]
      exact (List.length_take_le _ _)
    calc cleanupContacts out
        = ((List.insertionSort confGe out).filter
            (fun c => decide ((1 : ℚ) / 2 < c.confidence))).take 10 := by
          rw [cleanupContacts, hdedup]
      _ = out := by rw [hsort, hfilter, htake]
  · unfold _deduplicateContacts
    exact keepFirst_eq_self _ [] _ ((keepFirst_nodup _ [] l₂).1) (by simp)

/-! ### Contact validation and the extraction pipeline (C6)

Embedding of `_validateEmail` / `_validatePhone` / `_validateAddress`,
the per-contact pass of `contact_validation_tool`
(ContactSearchAgent.ts 562-588), and steps 5-6 of
`contact_extraction_tool` (lines 443-463). -/

/-- Whole-string match of `/^[^\s@]+@[^\s@]+\.[^\s@]+$/`: anchored at both
ends, so the regex matches iff the string splits as `a ++ "@" ++ b ++ "." ++
c` with `a`, `b`, `c` non-empty and free of whitespace and `@` (dots may
occur inside `b` and `c`); equivalently there is exactly one `@`, at
position `i ≥ 1`, no whitespace anywhere, and a `.` strictly between `i + 1`
and the last position. -/
def emailRegexTest (s : String) : Bool :=
  let cs := s.data
  let n := cs.length
  (List.range n).any (fun i =>
    (List.range n).any (fun j =>
      decide (1 ≤ i) && decide (i + 2 ≤ j) && decide (j + 1 < n) &&
      cs.get? i == some '@' && cs.get? j == some '.' &&
      (cs.take i).all (fun c => !isJsWs c && c != '@') &&
      (cs.drop (i + 1)).all (fun c => !isJsWs c && c != '@')))

/-- `email.split('@')[1]?.toLowerCase() || ''`: the segment between the
first and second `@` (or to the end), lowercased; empty when there is no
`@`. -/
def emailDomainLower (email : String) : String :=
  match email.data.dropWhile (fun c => c != '@') with
  | [] => ""
  | _ :: rest => String.mk (lowerL (rest.takeWhile (fun c => c != '@')))

/-- JS `String.prototype.split(/\s+/)` worker: splits on maximal whitespace
runs; a leading run contributes a leading `""` and a trailing run a trailing
`""`. -/
def splitWsAux : List Char → List Char → List String
  | acc, [] => [String.mk acc.reverse]
  | acc, c :: rest =>
      if isJsWs c then
        String.mk acc.reverse :: splitWsAux [] (rest.dropWhile isJsWs)
      else splitWsAux (c :: acc) rest
termination_by _ cs => cs.length
decreasing_by
  · have hle : (List.dropWhile isJsWs rest).length ≤ rest.length :=
      (List.dropWhile_sublist isJsWs).length_le
    simp
    omega
  · simp

/-- JS `s.split(/\s+/)` (note `"".split(/\s+/) = [""]`). -/
def jsSplitWs (s : String) : List String := splitWsAux [] s.data

/-- Result record of `_validateEmail`. -/
structure EmailValidation where
  confidence : ℚ
  domainMatch : Bool
  patternMatch : Bool

/-- `_validateEmail` of ContactSearchAgent.ts lines 944-965. -/
def _validateEmail (email : String) (target : Option String) : EmailValidation :=
  let patternMatch := emailRegexTest email
  let c1 : ℚ := if patternMatch then 8 / 10 else 3 / 10
  let domainMatch :=
    match target with
    | none => false
    | some t =>
        (jsSplitWs (String.mk (lowerL t.data))).any
          (fun part => containsSeqL part.data (emailDomainLower email).data)
  let c2 := if domainMatch then c1 + 15 / 100 else c1
  let lower := lowerL email.data
  let c3 :=
    if containsSeqL "contact".data lower || containsSeqL "info".data lower ||
        containsSeqL "support".data lower then c2 + 1 / 10
    else c2
  { confidence := min c3 1, domainMatch := domainMatch,
    patternMatch := patternMatch }

/-- Result record of `_validatePhone`. -/
structure PhoneValidation where
  confidence : ℚ
  patternMatch : Bool
  areaCodeMatchesLocation : Bool

/-- `phone.replace(/[\s\-\(\)]/g, '')`. -/
def phoneCleanChars (phone : String) : List Char :=
  phone.data.filter (fun c => !(isJsWs c || c == '-' || c == '(' || c == ')'))

/-- Whole-string match of `/^[\+]?[1-9][\d]{0,15}$/` (deterministic: the
optional `+` is consumed iff present). -/
def phonePattern (cs : List Char) : Bool :=
  let core := fun (l : List Char) =>
    match l with
    | c :: rest =>
        decide ('1' ≤ c) && decide (c ≤ '9') && rest.all Char.isDigit &&
          decide (rest.length ≤ 15)
    | [] => false
  match cs with
  | '+' :: rest => core rest
  | _ => core cs

/-- The city strings of the hard-coded area-code table; the source checks
only whether the location names one of these cities, ignoring the actual
area code digits. -/
def areaCodeCities : List String :=
  ["New York", "NY", "Los Angeles", "CA", "San Francisco", "CA", "Boston",
    "MA", "Seattle", "WA"]

/-- `_validatePhone` of ContactSearchAgent.ts lines 967-1000. -/
def _validatePhone (phone : String) (location : Option String) :
    PhoneValidation :=
  let cleanPhone := phoneCleanChars phone
  let patternMatch := phonePattern cleanPhone
  let c1 : ℚ := if patternMatch then 75 / 100 else 3 / 10
  let area :=
    match location with
    | none => false
    | some loc =>
        cleanPhone.head? == some '1' &&
          areaCodeCities.any (fun city =>
            containsSeqL (lowerL city.data) (lowerL loc.data))
  let c2 := if area then c1 + 15 / 100 else c1
  { confidence := min c2 1, patternMatch := patternMatch,
    areaCodeMatchesLocation := area }

/-- Result record of `_validateAddress`. -/
structure AddressValidation where
  confidence : ℚ
  locationMatch : Bool

/-- The address keyword list of `_validateAddress`. -/
def addressPatterns : List String :=
  ["st", "street", "ave", "avenue", "rd", "road", "blvd", "boulevard",
    "suite", "floor"]

/-- `_validateAddress` of ContactSearchAgent.ts lines 994-1016. -/
def _validateAddress (address : String) (target location : Option String) :
    AddressValidation :=
  let locationMatch :=
    match location with
    | none => false
    | some loc => containsSeqL (lowerL loc.data) (lowerL address.data)
  let c1 : ℚ := if locationMatch then 6 / 10 + 2 / 10 else 6 / 10
  let c2 :=
    match target with
    | none => c1
    | some t =>
        if containsSeqL (lowerL t.data) (lowerL address.data) then c1 + 15 / 100
        else c1
  let c3 :=
    if addressPatterns.any
        (fun p => containsSeqL p.data (lowerL address.data)) then c2 + 1 / 10
    else c2
  { confidence := min c3 1, locationMatch := locationMatch }

/-- One per-contact pass of `contact_validation_tool`
(ContactSearchAgent.ts 562-588): base confidence `0.5`, then the validator
matching the requested contact type, then the source multipliers (`vision`
× 0.9, `both` × 1.1), capped at 1. -/
def validateContact (target contactType : String) (location : Option String)
    (contact : ContactResult) : ContactResult :=
  let ev := _validateEmail contact.value (some target)
  let pv := _validatePhone contact.value location
  let av := _validateAddress contact.value (some target) location
  let conf1 : ℚ :=
    if contactType == "email" && contact.type == "email" then ev.confidence
    else 1 / 2
  let dm1 : Bool :=
    contactType == "email" && contact.type == "email" && ev.domainMatch
  let pm1 : Bool :=
    contactType == "email" && contact.type == "email" && ev.patternMatch
  let conf2 :=
    if contactType == "phone" && contact.type == "phone" then pv.confidence
    else conf1
  let pm2 :=
    if contactType == "phone" && contact.type == "phone" then pv.patternMatch
    else pm1
  let lm2 : Bool :=
    contactType == "phone" && contact.type == "phone" && location.isSome &&
      pv.areaCodeMatchesLocation
  let conf3 :=
    if contactType == "address" && contact.type == "address" then av.confidence
    else conf2
  let lm3 :=
    if contactType == "address" && contact.type == "address" then
      av.locationMatch
    else lm2
  let c4 := if contact.source == "vision" then conf3 * (9 / 10) else conf3
  let c5 := if contact.source == "both" then c4 * (11 / 10) else c4
  { contact with
    confidence := min c5 1,
    context := target ++ " - " ++ contactType ++ " contact",
    validation :=
      { domainMatch := dm1, patternMatch := pm2, locationMatch := lm3 } }

/-- The `validatedContacts` field of the validation tool's output: every
input contact, revalidated, with no confidence filter. -/
def validatedContacts (target contactType : String) (location : Option String)
    (contacts : List ContactResult) : List ContactResult :=
  contacts.map (validateContact target contactType location)

/-- The `highConfidenceContacts` field of the validation tool's output:
`validatedContacts.filter(c => c.confidence >= 0.6)` — computed by the tool
but never read by the extraction tool. -/
def highConfidenceContacts (target contactType : String)
    (location : Option String) (contacts : List ContactResult) :
    List ContactResult :=
  (validatedContacts target contactType location contacts).filter
    (fun c => decide ((6 : ℚ) / 10 ≤ c.confidence))

/-- Steps 5-6 of `contact_extraction_tool` (ContactSearchAgent.ts 443-463):
combine both extractors' lists, deduplicate, and — when validation is
requested — replace the list by the validation tool's `validatedContacts`
output field (the unfiltered list). -/
def extractionPipeline (textContacts visionContacts : List ContactResult)
    (validate : Bool) (target contactType : String)
    (location : Option String) : List ContactResult :=
  let uniqueContacts := _deduplicateContacts (textContacts ++ visionContacts)
  if validate then validatedContacts target contactType location uniqueContacts
  else uniqueContacts

/-- A text-extracted contact whose type does not match the requested type,
so no validator branch fires and its confidence stays at the 0.5 base. -/
def strayContact : ContactResult :=
  { value := "about our team", type := "general", confidence := 1 / 2,
    source := "text", context := "", validation := {} }

/-- C6 (code bug): the extraction pipeline's returned contact list is the
validation tool's *unfiltered* `validatedContacts`, so a contact with final
confidence `0.5 < 0.6` survives to the output — even though the validation
tool's own `highConfidenceContacts` (the filter the spec and the tool's
`confidenceThreshold: 0.6` metadata describe) would drop it. -/
theorem extraction_keeps_low_confidence :
    (extractionPipeline [strayContact] [] true "Acme Corp" "email" none).map
        (fun c => c.confidence) = [1 / 2] ∧
    ((1 : ℚ) / 2 < 6 / 10) ∧
    highConfidenceContacts "Acme Corp" "email" none [strayContact] = [] := by
  refine ⟨?_, by norm_num, ?_⟩
  · simp +decide [extractionPipeline, _deduplicateContacts, keepFirstByLower,
      validatedContacts, validateContact, strayContact]
    norm_num [min_def]
  · simp +decide [highConfidenceContacts, validatedContacts, validateContact,
      strayContact]
    norm_num [min_def]

/-! ### The rate-limited gateway `callLLM` (C3, C4)

Timing model of `callLLM` (src/unnamed/part_001 lines 285-444).  Time is an
exact rational count of milliseconds; awaited delays advance the clock by
exactly the requested amount and each fetch by an environment-supplied
duration.  `minInterval = 60000 / requestsPerMinute` is the exact rational
quotient (for `rpm = 15` the JS float is exactly 4000).  Parsing of a
successful response body (JSON extraction, safety-block errors) happens
after the claims' scope and is collapsed into the `success` outcome. -/

/-- The slice of `AIConfig` that the pacing and retry logic reads. -/
structure AIConfig where
  enabled : Bool
  hasApiKey : Bool
  provider : String
  requestsPerMinute : ℚ
deriving Repr, DecidableEq

/-- Abstract HTTP response: status, whether the JSON body carries an
`error` object, and the parsed `retry-after` header in seconds. -/
structure FetchResp where
  ok : Bool
  status : ℕ
  hasErrorBody : Bool
  retryAfter : Option ℕ
deriving Repr, DecidableEq

/-- Environment of one `callLLM` invocation: the first fetch's response and
duration, and — if the retry path runs — the retry's. -/
structure CallEnv where
  firstResp : FetchResp
  firstDur : ℚ
  retryResp : FetchResp
  retryDur : ℚ
deriving Repr, DecidableEq

/-- How `callLLM` terminates. -/
inductive CallOutcome
  | success
  | errConfig
  | errProvider
  | errHttp (status : ℕ)
  | errRetryFailed (status : ℕ)
deriving Repr, DecidableEq

/-- Result of one `callLLM` invocation: outcome, the instants the fetches
were issued, the updated shared `lastRequestTime` and the return instant. -/
structure CallResult where
  outcome : CallOutcome
  sendTimes : List ℚ
  last : ℚ
  endTime : ℚ
deriving Repr, DecidableEq

/-- The fetch/retry phase of `callLLM`, entered at the instant `t1` at
which the pacing gate releases the initial request: first fetch, and — only
for the `google` provider on HTTP 429 with an error body — a single ungated
retry after `retry-after` seconds (default 60), whose failure throws; any
other non-ok response throws immediately.  `lastRequestTime` was set to
`t1` just before the fetch and is *not* updated for the retry request. -/
def callLLMsend (cfg : AIConfig) (t1 : ℚ) (env : CallEnv) : CallResult :=
  if env.firstResp.ok = true then
    { outcome := .success, sendTimes := [t1], last := t1,
      endTime := t1 + env.firstDur }
  else if env.firstResp.hasErrorBody = true ∧ cfg.provider = "google" ∧
      env.firstResp.status = 429 then
    if env.retryResp.ok = true then
      { outcome := .success,
        sendTimes := [t1, t1 + env.firstDur +
          (env.firstResp.retryAfter.getD 60 : ℕ) * 1000],
        last := t1,
        endTime := t1 + env.firstDur +
          (env.firstResp.retryAfter.getD 60 : ℕ) * 1000 + env.retryDur }
    else
      { outcome := .errRetryFailed env.retryResp.status,
        sendTimes := [t1, t1 + env.firstDur +
          (env.firstResp.retryAfter.getD 60 : ℕ) * 1000],
        last := t1,
        endTime := t1 + env.firstDur +
          (env.firstResp.retryAfter.getD 60 : ℕ) * 1000 + env.retryDur }
  else
    { outcome := .errHttp env.firstResp.status, sendTimes := [t1], last := t1,
      endTime := t1 + env.firstDur }

/-- `callLLM` of src/unnamed/part_001: config guard, provider switch, the
pacing gate (`elapsed < minInterval` → wait `minInterval - elapsed`, then
`lastRequestTime = Date.now()`), then the fetch/retry phase. -/
def callLLM (cfg : AIConfig) (lastRequestTime now : ℚ) (env : CallEnv) :
    CallResult :=
  if ¬(cfg.enabled = true ∧ cfg.hasApiKey = true) then
    { outcome := .errConfig, sendTimes := [], last := lastRequestTime,
      endTime := now }
  else if ¬(cfg.provider = "openai" ∨ cfg.provider = "google" ∨
      cfg.provider = "openrouter") then
    { outcome := .errProvider, sendTimes := [], last := lastRequestTime,
      endTime := now }
  else if now - lastRequestTime < 60000 / cfg.requestsPerMinute then
    callLLMsend cfg
      (now + (60000 / cfg.requestsPerMinute - (now - lastRequestTime))) env
  else
    callLLMsend cfg now env

/-- Sequential `callLLM` invocations: each call starts when the previous
one returns, threading the shared `lastRequestTime`. -/
def seqCalls (cfg : AIConfig) : ℚ × ℚ → List CallEnv → List CallResult
  | _, [] => []
  | (last, now), env :: envs =>
      let r := callLLM cfg last now env
      r :: seqCalls cfg (r.last, r.endTime) envs

/-- The instants at which each sequential call issues its initial (gated)
request. -/
def firstSends (rs : List CallResult) : List ℚ :=
  rs.map (fun r => r.sendTimes.headD 0)

/-- The gateway configuration of the free-tier default: `google` provider
at 15 requests per minute. -/
def gatewayCfg15 : AIConfig :=
  { enabled := true, hasApiKey := true, provider := "google",
    requestsPerMinute := 15 }

/-- A response environment in which the first fetch succeeds at once. -/
def envOk0 : CallEnv where
  firstResp := { ok := true, status := 200, hasErrorBody := false, retryAfter := none }
  firstDur := 0
  retryResp := { ok := true, status := 200, hasErrorBody := false, retryAfter := none }
  retryDur := 0

/-- A response environment: 429 with an error body and a zero
`retry-after` header, whose retry also fails with 429. -/
def env429retry0 : CallEnv where
  firstResp := { ok := false, status := 429, hasErrorBody := true, retryAfter := some 0 }
  firstDur := 0
  retryResp := { ok := false, status := 429, hasErrorBody := true, retryAfter := none }
  retryDur := 0

/-- A response environment: 429 with an error body and `retry-after: 5`,
whose retry fails with 429, after a 100 ms first fetch. -/
def env429ra5 : CallEnv where
  firstResp := { ok := false, status := 429, hasErrorBody := true, retryAfter := some 5 }
  firstDur := 100
  retryResp := { ok := false, status := 429, hasErrorBody := true, retryAfter := none }
  retryDur := 0

/-- A response environment: 429 with an error body and `retry-after: 5`,
whose retry would succeed. -/
def env429raOk : CallEnv where
  firstResp := { ok := false, status := 429, hasErrorBody := true, retryAfter := some 5 }
  firstDur := 0
  retryResp := { ok := true, status := 200, hasErrorBody := false, retryAfter := none }
  retryDur := 0

/-- An `openai`-provider configuration at 15 requests per minute. -/
def cfgOpenai15 : AIConfig where
  enabled := true
  hasApiKey := true
  provider := "openai"
  requestsPerMinute := 15

/-- The send phase issues its initial request at `t1` and records it as the
new `lastRequestTime`. -/
theorem callLLMsend_head (cfg : AIConfig) (t1 : ℚ) (env : CallEnv) :
    (callLLMsend cfg t1 env).sendTimes.headD 0 = t1 ∧
    (callLLMsend cfg t1 env).last = t1 := by
  unfold callLLMsend
  split_ifs <;> exact ⟨rfl, rfl⟩

/-- With non-negative fetch durations the send phase ends no earlier than
its initial send. -/
theorem callLLMsend_end (cfg : AIConfig) (t1 : ℚ) (env : CallEnv)
    (hd1 : 0 ≤ env.firstDur) (hd2 : 0 ≤ env.retryDur) :
    t1 ≤ (callLLMsend cfg t1 env).endTime := by
  have hra : (0 : ℚ) ≤ (env.firstResp.retryAfter.getD 60 : ℕ) * 1000 := by
    positivity
  unfold callLLMsend
  split_ifs <;> simp <;> linarith

/-- Per-call pacing facts: under a usable configuration the initial request
is sent no earlier than `lastRequestTime + minInterval`, the updated
`lastRequestTime` is exactly the send instant, and the call returns no
earlier than it sent. -/
theorem callLLM_first_send (cfg : AIConfig) (last now : ℚ) (env : CallEnv)
    (h1 : cfg.enabled = true) (h2 : cfg.hasApiKey = true)
    (h3 : cfg.provider = "openai" ∨ cfg.provider = "google" ∨
      cfg.provider = "openrouter")
    (hd1 : 0 ≤ env.firstDur) (hd2 : 0 ≤ env.retryDur) :
    (callLLM cfg last now env).sendTimes.headD 0 = (callLLM cfg last now env).last ∧
    last + 60000 / cfg.requestsPerMinute ≤ (callLLM cfg last now env).last ∧
    (callLLM cfg last now env).last ≤ (callLLM cfg last now env).endTime := by
  unfold callLLM
  rw [if_neg (by simp [h1, h2]), if_neg (not_not_intro h3)]
  by_cases hp : now - last < 60000 / cfg.requestsPerMinute
  · rw [if_pos hp]
    obtain ⟨e1, e2⟩ := callLLMsend_head cfg
      (now + (60000 / cfg.requestsPerMinute - (now - last))) env
    refine ⟨by rw [e1, e2], by rw [e2]; linarith, ?_⟩
    rw [e2]
    exact callLLMsend_end cfg _ env hd1 hd2
  · rw [if_neg hp]
    push_neg at hp
    obtain ⟨e1, e2⟩ := callLLMsend_head cfg now env
    refine ⟨by rw [e1, e2], by rw [e2]; linarith, ?_⟩
    rw [e2]
    exact callLLMsend_end cfg _ env hd1 hd2

/-- The head of a sequential run's first-send list is at least
`last + 4000` for the rpm-15 gateway. -/
theorem seqCalls_head_ge (envs : List CallEnv) (last now : ℚ)
    (hdur : ∀ e ∈ envs, 0 ≤ e.firstDur ∧ 0 ≤ e.retryDur) :
    ∀ x ∈ (firstSends (seqCalls gatewayCfg15 (last, now) envs)).head?,
      last + 4000 ≤ x := by
  cases envs with
  | nil => simp [seqCalls, firstSends]
  | cons env envs =>
      intro x hx
      obtain ⟨he, -⟩ : (0 ≤ env.firstDur ∧ 0 ≤ env.retryDur) ∧ True :=
        ⟨hdur env (List.mem_cons_self _ _), trivial⟩
      have hcall := callLLM_first_send gatewayCfg15 last now env rfl rfl
        (Or.inr (Or.inl rfl)) he.1 he.2
      simp only [seqCalls, firstSends, List.map_cons, List.head?_cons,
        Option.mem_def, Option.some.injEq] at hx
      subst hx
      rw [hcall.1]
      have : (60000 : ℚ) / gatewayCfg15.requestsPerMinute = 4000 := by
        norm_num [gatewayCfg15]
      linarith [hcall.2.1, this ▸ hcall.2.1]

/-- Consecutive initial sends of sequential rpm-15 calls are at least
4000 ms apart. -/
theorem seqCalls_chain (envs : List CallEnv) :
    ∀ (last now : ℚ), (∀ e ∈ envs, 0 ≤ e.firstDur ∧ 0 ≤ e.retryDur) →
      List.Chain' (fun t t' => t + 4000 ≤ t')
        (firstSends (seqCalls gatewayCfg15 (last, now) envs)) := by
  induction envs with
  | nil => intro last now _; simp [seqCalls, firstSends]
  | cons env envs ih =>
      intro last now hdur
      have he := hdur env (List.mem_cons_self _ _)
      have hcall := callLLM_first_send gatewayCfg15 last now env rfl rfl
        (Or.inr (Or.inl rfl)) he.1 he.2
      have hdur' : ∀ e ∈ envs, 0 ≤ e.firstDur ∧ 0 ≤ e.retryDur :=
        fun e2 he2 => hdur e2 (List.mem_cons_of_mem _ he2)
      simp only [seqCalls, firstSends, List.map_cons]
      rw [List.chain'_cons']
      refine ⟨?_, ih _ _ hdur'⟩
      intro y hy
      have hhead := seqCalls_head_ge envs
        ((callLLM gatewayCfg15 last now env).last)
        ((callLLM gatewayCfg15 last now env).endTime) hdur' y hy
      rw [hcall.1]
      have h4 : (4000 : ℚ) = 60000 / gatewayCfg15.requestsPerMinute := by
        norm_num [gatewayCfg15]
      linarith

/-- A chain of gaps `≥ d` between consecutive entries forces the last entry
to exceed the first by `d` times the number of gaps. -/
theorem chain_head_le_getLast (d : ℚ) :
    ∀ (l : List ℚ), List.Chain' (fun t t' => t + d ≤ t') l →
      ∀ (hne : l ≠ []),
        l.head hne + d * ((l.length : ℚ) - 1) ≤ l.getLast hne := by
  intro l
  induction l with
  | nil => intro _ hne; simp at hne
  | cons a l ih =>
      intro hch hne
      cases l with
      | nil => simp
      | cons b t =>
          have h1 : a + d ≤ b := (List.chain'_cons.mp hch).1
          have h2 := ih (List.chain'_cons.mp hch).2 (by simp)
          have hhead : (b :: t).head (by simp) = b := rfl
          rw [hhead] at h2
          have hlast : (a :: b :: t).getLast hne = (b :: t).getLast (by simp) := by
            simp [List.getLast_cons]
          rw [hlast]
          have hlen : ((a :: b :: t).length : ℚ) = ((b :: t).length : ℚ) + 1 := by
            push_cast [List.length_cons]
            ring
          rw [List.head_cons, hlen]
          have : a + d * (((b :: t).length : ℚ) + 1 - 1) ≤
              b + d * (((b :: t).length : ℚ) - 1) := by ring_nf; linarith
          linarith

/-- C3 (amended): the pacing gate is hard for every *initial* gateway
request — when `elapsed < minInterval` (`minInterval = 60000 / rpm`) the
caller is suspended for exactly `minInterval - elapsed` before the request
goes out — and for the rpm-15 gateway any `N` sequential `callLLM`
invocations issue their initial requests at least 4000 ms apart, so the
sequence spans at least `(N-1) · 4000` ms of wall time.  (429 retry
requests bypass the gate; see the counterexample.) -/
theorem callLLM_rate_gate (cfg : AIConfig) (last now : ℚ) (env : CallEnv)
    (envs : List CallEnv) (last₀ now₀ : ℚ)
    (h1 : cfg.enabled = true) (h2 : cfg.hasApiKey = true)
    (h3 : cfg.provider = "openai" ∨ cfg.provider = "google" ∨
      cfg.provider = "openrouter")
    (hlt : now - last < 60000 / cfg.requestsPerMinute)
    (hdur : ∀ e ∈ envs, 0 ≤ e.firstDur ∧ 0 ≤ e.retryDur) :
    (callLLM cfg last now env).sendTimes.headD 0 =
      now + (60000 / cfg.requestsPerMinute - (now - last)) ∧
    List.Chain' (fun t t' => t + 4000 ≤ t')
      (firstSends (seqCalls gatewayCfg15 (last₀, now₀) envs)) ∧
    ∀ (hne : firstSends (seqCalls gatewayCfg15 (last₀, now₀) envs) ≠ []),
      (firstSends (seqCalls gatewayCfg15 (last₀, now₀) envs)).head hne +
          4000 * (((firstSends (seqCalls gatewayCfg15 (last₀, now₀) envs)).length : ℚ) - 1) ≤
        (firstSends (seqCalls gatewayCfg15 (last₀, now₀) envs)).getLast hne := by
  refine ⟨?_, seqCalls_chain envs last₀ now₀ hdur, ?_⟩
  · unfold callLLM
    rw [if_neg (by simp [h1, h2]), if_neg (not_not_intro h3), if_pos hlt]
    exact (callLLMsend_head cfg _ env).1
  · intro hne
    exact chain_head_le_getLast 4000 _ (seqCalls_chain envs last₀ now₀ hdur) hne

/-- Witness for C3 (amended): two back-to-back rpm-15 calls starting with
`lastRequestTime = 0` at `now = 10000`; the second call is gated 4000 ms
after the first. -/
theorem callLLM_rate_gate_witness :
    (callLLM gatewayCfg15 6000 7000 envOk0).sendTimes.headD 0 =
      7000 + (60000 / gatewayCfg15.requestsPerMinute - (7000 - 6000)) := by
  have h := callLLM_rate_gate gatewayCfg15 6000 7000 envOk0
    [] 0 0 rfl rfl (Or.inr (Or.inl rfl))
    (by norm_num [gatewayCfg15]) (by simp)
  exact h.1

/-- C3 counterexample: a single rpm-15 `callLLM` invocation that receives
HTTP 429 with `retry-after: 0` issues its retry request at the same instant
as the initial request — two consecutive gateway requests less than
`minInterval = 4000` ms apart, because the retry bypasses the pacing
gate. -/
theorem callLLM_retry_bypasses_gate :
    (callLLM gatewayCfg15 0 10000 env429retry0).sendTimes = [10000, 10000] ∧
    ¬((10000 : ℚ) + 4000 ≤ 10000) := by
  constructor
  · simp +decide [callLLM, callLLMsend, gatewayCfg15, env429retry0]
    norm_num
  · norm_num

/-- C4 (amended): for the `google` provider, a 429 response carrying an
error body triggers exactly one retry, sent `firstDur + retryAfter·1000` ms
after the initial send (`retryAfter` defaulting to 60 s when the header is
absent); a failed retry surfaces the retry-failure error; and no invocation
of `callLLM` ever issues more than two requests.  For other providers, or a
429 without a parsed error body, no retry occurs (see the
counterexample). -/
theorem callLLM_429_retry (cfg : AIConfig) (last now : ℚ) (env : CallEnv)
    (h1 : cfg.enabled = true) (h2 : cfg.hasApiKey = true)
    (hg : cfg.provider = "google") (hok : env.firstResp.ok = false)
    (hbody : env.firstResp.hasErrorBody = true)
    (hst : env.firstResp.status = 429) :
    (∀ (cfg' : AIConfig) (last' now' : ℚ) (env' : CallEnv),
      (callLLM cfg' last' now' env').sendTimes.length ≤ 2) ∧
    (callLLM cfg last now env).sendTimes.length = 2 ∧
    (callLLM cfg last now env).sendTimes.getLast? = some
      ((callLLM cfg last now env).sendTimes.headD 0 + env.firstDur +
        (env.firstResp.retryAfter.getD 60 : ℕ) * 1000) ∧
    (env.retryResp.ok = false →
      (callLLM cfg last now env).outcome = .errRetryFailed env.retryResp.status) ∧
    (env.retryResp.ok = true →
      (callLLM cfg last now env).outcome = .success) := by
  constructor
  · intro cfg' last' now' env'
    unfold callLLM callLLMsend
    split_ifs <;> simp
  · unfold callLLM
    have hsend : ∀ t1 : ℚ,
        (callLLMsend cfg t1 env).sendTimes.length = 2 ∧
        (callLLMsend cfg t1 env).sendTimes.getLast? = some
          ((callLLMsend cfg t1 env).sendTimes.headD 0 + env.firstDur +
            (env.firstResp.retryAfter.getD 60 : ℕ) * 1000) ∧
        (env.retryResp.ok = false →
          (callLLMsend cfg t1 env).outcome =
            .errRetryFailed env.retryResp.status) ∧
        (env.retryResp.ok = true →
          (callLLMsend cfg t1 env).outcome = .success) := by
      intro t1
      unfold callLLMsend
      rw [if_neg (by simp [hok]), if_pos ⟨hbody, hg, hst⟩]
      split_ifs with hr
      · refine ⟨rfl, by simp, fun hc => by simp [hr] at hc, fun _ => rfl⟩
      · refine ⟨rfl, by simp, fun _ => rfl, fun hc => by simp [hc] at hr⟩
    rw [if_neg (by simp [h1, h2]),
      if_neg (not_not_intro (Or.inr (Or.inl hg)))]
    by_cases hp : now - last < 60000 / cfg.requestsPerMinute
    · rw [if_pos hp]; exact hsend _
    · rw [if_neg hp]; exact hsend _

/-- Witness for C4 (amended): google provider, 429 with `retry-after: 5`,
failing retry — exactly two requests, the second 5000 ms after the first
returns, and the retry failure surfaces. -/
theorem callLLM_429_retry_witness :
    (callLLM gatewayCfg15 0 10000 env429ra5).sendTimes.length = 2 ∧
    (callLLM gatewayCfg15 0 10000 env429ra5).outcome = .errRetryFailed 429 := by
  have h := callLLM_429_retry gatewayCfg15 0 10000 env429ra5
    rfl rfl rfl rfl rfl rfl
  exact ⟨h.2.1, h.2.2.2.1 rfl⟩

/-- C4 counterexample: an `openai`-provider request that receives HTTP 429
(with an error body and a `retry-after` header) performs *no* retry — the
single request's failure surfaces immediately, contradicting the claim that
every 429 is retried exactly once after the server-indicated delay. -/
theorem callLLM_429_openai_no_retry :
    (callLLM cfgOpenai15 0 10000 env429raOk).sendTimes.length = 1 ∧
    (callLLM cfgOpenai15 0 10000 env429raOk).outcome = .errHttp 429 := by
  constructor <;>
    simp +decide [callLLM, callLLMsend, cfgOpenai15, env429raOk] <;>
    split_ifs <;> rfl

/-! ### The `runTask` agent loop (`src/mobile/src/native/browserOS.ts` 218–346)

The loop's interactions with the browser are modelled by an environment:
per step a flag for whether `browser.screenshot()` resolves, the action
`nextAction` returns (`nextAction` never throws — its `catch` falls back to
a downward scroll), a flag for whether the browser action executed in that
step resolves, and the contact list (as JSON strings) that
`extractContactsFromCurrentPage` returns (that function never throws — its
own `catch` returns `[]`).  Globally: whether the initial navigation
resolves, whether `browser.getCurrentURL()` resolves and the URL it
returns, the viewport `getViewportDimensions()` reports (that function
never throws), and what `extractFinalContacts()` returns.  A rejected
native call is recorded by the outer `catch` as an error; the model
abstracts the thrown message to the name of the rejecting operation. -/

/-- JS truthiness of an optional number (`undefined` and `0` are falsy),
as in `if (action.x && action.y)`. -/
def jsTruthyNum : Option ℤ → Bool
  | none => false
  | some n => decide (n ≠ 0)

/-- JS truthiness of an optional string (`undefined` and `""` are falsy),
as in `if (action.text)`. -/
def jsTruthyStr : Option String → Bool
  | none => false
  | some s => !s.isEmpty

/-- `action.answer || 'Task completed successfully'`: JS `||` takes the
default when the left side is `undefined` or the empty string. -/
def jsOrStr (o : Option String) (d : String) : String :=
  match o with
  | none => d
  | some s => if s.isEmpty then d else s

/-- `[...new Set(xs)]`: a JS `Set` keeps the first occurrence of each
element in insertion order. -/
def dedupSeen : List String → List String → List String
  | _, [] => []
  | seen, s :: rest =>
      if s ∈ seen then dedupSeen seen rest
      else s :: dedupSeen (s :: seen) rest

/-- Keep-first deduplication of the JSON-stringified contact list,
`[...new Set(extractedContacts.map(JSON.stringify))].map(JSON.parse)`. -/
def jsSetDedup (xs : List String) : List String := dedupSeen [] xs

/-- The in-loop extraction step after a click or type action: push the new
contacts and re-deduplicate, but only when some were found. -/
def stepExtract (ex ncs : List String) : List String :=
  if ncs.isEmpty then ex else jsSetDedup (ex ++ ncs)

/-- The browser interactions of one loop iteration. -/
structure StepEnv where
  screenshotOk : Bool
  action : ActionRec
  execOk : Bool
  extracted : List String

/-- The browser interactions of a whole `runTask` run. -/
structure TaskEnv where
  navOk : Bool
  steps : Nat → StepEnv
  urlOk : Bool
  url : String
  vw : ℤ
  vh : ℤ
  finalExtract : List String

/-- The `AgentResult` fields the claims speak about (the `actions` log is
omitted). -/
structure AgentResult where
  success : Bool
  answer : Option String
  steps : Nat
  contacts : List String
  error : Option String
  finalURL : Option String
deriving Repr, DecidableEq

/-- The result the outer `catch` block produces when the operation `op`
rejected at step `step`: the error and a derived answer are recorded,
`success` is (re)set to `false`, and `contacts` and `finalURL` keep their
initial values `[]` and `undefined`. -/
def errResult (step : Nat) (op : String) : AgentResult :=
  { success := false, answer := some ("Error occurred: " ++ op),
    steps := step, contacts := [], error := some op, finalURL := none }

/-- The `done` branch: set `success`, take `action.answer` or the default,
read the final URL (a rejection here falls to the `catch` with `finalURL`
still unset), fall back to `extractFinalContacts()` when nothing was
gathered, and return. -/
def doneResult (env : TaskEnv) (step : Nat) (a : ActionRec)
    (ex : List String) : AgentResult :=
  if env.urlOk = true then
    { success := true,
      answer := some (jsOrStr a.answer "Task completed successfully"),
      steps := step,
      contacts := if ex.isEmpty then env.finalExtract else ex,
      error := none, finalURL := some env.url }
  else errResult step "getCurrentURL"

/-- `Max steps (${maxSteps}) reached. Partial progress made.` -/
def maxMsg (maxSteps : Nat) : String :=
  "Max steps (" ++ toString maxSteps ++ ") reached. Partial progress made."

/-- The code after the loop: the max-steps answer, the final URL (a
rejection falls to the `catch`), and the gathered contacts. -/
def maxStepsResult (env : TaskEnv) (maxSteps step : Nat)
    (ex : List String) : AgentResult :=
  if env.urlOk = true then
    { success := false, answer := some (maxMsg maxSteps), steps := step,
      contacts := ex, error := none, finalURL := some env.url }
  else errResult step "getCurrentURL"

/-- The `while (currentStep < maxSteps)` loop, by fuel
(`fuel = maxSteps - currentStep`), threading the step counter and the
`extractedContacts` accumulator: increment the counter, screenshot,
dispatch on the decoded action — click only under truthy coordinates that
validate against the viewport (invalid ones scroll instead), type only
under truthy text, scroll, done returns — then extract after click/type
steps. -/
def runTaskLoop (env : TaskEnv) (maxSteps : Nat) :
    Nat → Nat → List String → AgentResult
  | 0, currentStep, ex => maxStepsResult env maxSteps currentStep ex
  | fuel + 1, currentStep, ex =>
      let k := currentStep + 1
      let se := env.steps k
      if se.screenshotOk = false then errResult k "screenshot"
      else if se.action.type = "done" then doneResult env k se.action ex
      else if se.action.type = "click" then
        if jsTruthyNum se.action.x && jsTruthyNum se.action.y then
          if validateCoordinates (se.action.x.getD 0) (se.action.y.getD 0)
              env.vw env.vh then
            if se.execOk = true then
              runTaskLoop env maxSteps fuel k (stepExtract ex se.extracted)
            else errResult k "click"
          else
            if se.execOk = true then
              runTaskLoop env maxSteps fuel k (stepExtract ex se.extracted)
            else errResult k "scroll"
        else runTaskLoop env maxSteps fuel k (stepExtract ex se.extracted)
      else if se.action.type = "type" then
        if jsTruthyStr se.action.text then
          if se.execOk = true then
            runTaskLoop env maxSteps fuel k (stepExtract ex se.extracted)
          else errResult k "type"
        else runTaskLoop env maxSteps fuel k (stepExtract ex se.extracted)
      else if se.action.type = "scroll" then
        if se.execOk = true then runTaskLoop env maxSteps fuel k ex
        else errResult k "scroll"
      else runTaskLoop env maxSteps fuel k ex

/-- `runTask`: initial navigation (a rejection falls to the `catch` with
the step counter still 0), then the loop from step 0 with an empty
accumulator. -/
def runTask (env : TaskEnv) (maxSteps : Nat) : AgentResult :=
  if env.navOk = true then runTaskLoop env maxSteps maxSteps 0 []
  else errResult 0 "navigation"

/-- The outcome trichotomy of a finished run: success with no error,
the step limit with the max-steps answer and no error, or a recorded
error without success. -/
def outcomeTri (maxSteps : Nat) (r : AgentResult) : Prop :=
  (r.error = none ∧ r.success = true) ∨
  (r.error = none ∧ r.success = false ∧ r.steps = maxSteps ∧
    r.answer = some (maxMsg maxSteps)) ∨
  (∃ e, r.error = some e ∧ r.success = false)

/-- What every terminal of the loop guarantees. -/
def loopPost (env : TaskEnv) (maxSteps : Nat) (r : AgentResult) : Prop :=
  r.steps ≤ maxSteps ∧ outcomeTri maxSteps r ∧
  (r.error = none → r.finalURL = some env.url) ∧
  (∀ e, r.error = some e → r.contacts = [] ∧ r.finalURL = none)

/-- The catch result satisfies the loop postcondition. -/
theorem errResult_post (env : TaskEnv) (maxSteps step : Nat) (op : String)
    (h : step ≤ maxSteps) : loopPost env maxSteps (errResult step op) := by
  refine ⟨h, Or.inr (Or.inr ⟨op, rfl, rfl⟩), ?_, ?_⟩
  · intro hc; simp [errResult] at hc
  · intro e he; exact ⟨rfl, rfl⟩

/-- The done branch satisfies the loop postcondition. -/
theorem doneResult_post (env : TaskEnv) (maxSteps step : Nat)
    (a : ActionRec) (ex : List String) (h : step ≤ maxSteps) :
    loopPost env maxSteps (doneResult env step a ex) := by
  unfold doneResult
  by_cases hu : env.urlOk = true
  · rw [if_pos hu]
    exact ⟨h, Or.inl ⟨rfl, rfl⟩, fun _ => rfl, fun e he => by simp at he⟩
  · rw [if_neg hu]
    exact errResult_post env maxSteps step _ h
/-- The post-loop code satisfies the loop postcondition when the counter
has reached the limit. -/
theorem maxStepsResult_post (env : TaskEnv) (maxSteps : Nat)
    (ex : List String) : loopPost env maxSteps (maxStepsResult env maxSteps maxSteps ex) := by
  unfold maxStepsResult
  by_cases hu : env.urlOk = true
  · rw [if_pos hu]
    exact ⟨le_refl _, Or.inr (Or.inl ⟨rfl, rfl, rfl, rfl⟩), fun _ => rfl,
      fun e he => by simp at he⟩
  · rw [if_neg hu]
    exact errResult_post env maxSteps maxSteps _ (le_refl _)

/-- Every run of the loop with a consistent fuel satisfies the
postcondition. -/
theorem runTaskLoop_post (env : TaskEnv) (maxSteps : Nat) :
    ∀ (fuel currentStep : Nat) (ex : List String),
      currentStep + fuel = maxSteps →
      loopPost env maxSteps (runTaskLoop env maxSteps fuel currentStep ex) := by
  intro fuel
  induction fuel with
  | zero =>
      intro c ex hinv
      have hc : c = maxSteps := by omega
      rw [hc]
      exact maxStepsResult_post env maxSteps ex
  | succ fuel ih =>
      intro c ex hinv
      have hk : c + 1 ≤ maxSteps := by omega
      have hinv' : c + 1 + fuel = maxSteps := by omega
      show loopPost env maxSteps _
      rw [runTaskLoop]
      split_ifs <;>
        first
          | exact ih _ _ hinv'
          | exact errResult_post env maxSteps _ _ hk
          | exact doneResult_post env maxSteps _ _ _ hk

/-- C2: for every `maxSteps ≥ 1` and every environment, `runTask`
terminates with at most `maxSteps` loop iterations recorded, and its
outcome is exactly one of: success with no error (a done action), the
step limit reached with the max-steps answer and no error, or a recorded
error without success. -/
theorem runTask_bounded_trichotomy (env : TaskEnv) (maxSteps : Nat)
    (h : 1 ≤ maxSteps) :
    (runTask env maxSteps).steps ≤ maxSteps ∧
    outcomeTri maxSteps (runTask env maxSteps) := by
  unfold runTask
  by_cases hn : env.navOk = true
  · rw [if_pos hn]
    have hp := runTaskLoop_post env maxSteps maxSteps 0 [] (by omega)
    exact ⟨hp.1, hp.2.1⟩
  · rw [if_neg hn]
    exact ⟨Nat.zero_le _, Or.inr (Or.inr ⟨"navigation", rfl, rfl⟩)⟩

/-- A run whose first step is a done action. -/
def envC2 : TaskEnv where
  navOk := true
  steps := fun _ =>
    { screenshotOk := true, action := { type := "done", answer := some "ok" },
      execOk := true, extracted := [] }
  urlOk := true
  url := "https://www.google.com"
  vw := 390
  vh := 844
  finalExtract := []

/-- Witness for C2 at `maxSteps = 1`. -/
theorem runTask_bounded_trichotomy_witness :
    (runTask envC2 1).steps ≤ 1 ∧ outcomeTri 1 (runTask envC2 1) :=
  runTask_bounded_trichotomy envC2 1 (by decide)

/-- C8 (amended): a result with no recorded error carries the final URL
(and the contact accumulator, as the terminal branches show), but on any
thrown error the `catch` block leaves `result.contacts` at its initial
empty list and `result.finalURL` unset — the partial contact list gathered
before the error IS discarded on failure. -/
theorem runTask_error_discards_progress (env : TaskEnv) (maxSteps : Nat) :
    ((runTask env maxSteps).error = none →
      (runTask env maxSteps).finalURL = some env.url) ∧
    (∀ e, (runTask env maxSteps).error = some e →
      (runTask env maxSteps).contacts = [] ∧
      (runTask env maxSteps).finalURL = none) := by
  unfold runTask
  by_cases hn : env.navOk = true
  · rw [if_pos hn]
    have hp := runTaskLoop_post env maxSteps maxSteps 0 [] (by omega)
    exact ⟨hp.2.2.1, hp.2.2.2⟩
  · rw [if_neg hn]
    exact ⟨fun hc => by simp [errResult] at hc, fun e he => ⟨rfl, rfl⟩⟩

/-- A run that gathers a contact at step 1 (a valid click followed by DOM
extraction) and whose step-2 screenshot rejects. -/
def envC8 : TaskEnv where
  navOk := true
  steps := fun k =>
    if k = 1 then
      { screenshotOk := true,
        action := { type := "click", x := some 100, y := some 200 },
        execOk := true, extracted := ["a@x.com"] }
    else
      { screenshotOk := false, action := { type := "scroll" },
        execOk := true, extracted := [] }
  urlOk := true
  url := "https://example.com"
  vw := 390
  vh := 844
  finalExtract := []

/-- Witness for C8 (amended) on the error side of the run above. -/
theorem runTask_error_discards_progress_witness :
    (runTask envC8 2).contacts = [] ∧ (runTask envC8 2).finalURL = none :=
  (runTask_error_discards_progress envC8 2).2 "screenshot" (by decide)

/-- C8 counterexample: in the same environment, stopping at the step limit
after step 1 returns the gathered contact and the final URL, but running
on to step 2 — where the screenshot rejects — returns an error result with
an empty contact list and no final URL: the gathered partial progress is
discarded. -/
theorem runTask_discards_partial_progress :
    (runTask envC8 1).contacts = ["a@x.com"] ∧
    (runTask envC8 1).finalURL = some "https://example.com" ∧
    (runTask envC8 1).error = none ∧
    (runTask envC8 2).contacts = [] ∧
    (runTask envC8 2).finalURL = none ∧
    (runTask envC8 2).error = some "screenshot" := by decide

end Zerant
